import Mathlib

/-!
Verification of the convergence workflows of `aiida-sssp-workflow`.

The development shallowly embeds the two convergence workflow modules:

* `workflows/convergence/pressure.py` — the Birch-Murnaghan equation-of-state
  inversion (`helper_get_volume_from_pressure_birch_murnaghan`) and the
  pressure-difference calcfunction (`helper_pressure_difference`);
* `workflows/convergence/cohesive_energy.py` — the
  `ConvergenceCohesiveEnergyWorkChain` steps (`get_inputs`, `run_ref`,
  `run_all`, `results`) together with its outline and exit code.

Numeric values carried in Python floats are modelled by exact rationals or
reals; `np.roots` (a numerical root finder) is modelled by the exact set of
real roots of the same coefficient list, so the helper that selects a root
is embedded as a relation between its arguments and its return value.
-/

namespace SsspWorkflow

/-! ## pressure.py : Birch-Murnaghan inversion -/

/-- Conversion applied first by `helper_get_volume_from_pressure_birch_murnaghan`:
`P = P / 160.21766208` (GPa to eV/angstrom^3). -/
def GPa_to_eV_angs3 {K : Type} [Field K] (P : K) : K := P / 160.21766208

/-- The coefficient list `polynomial` built by
`helper_get_volume_from_pressure_birch_murnaghan`, highest power first
(the list passed to `np.roots`); `x = (V0/V)^(1/3)`:
`[3/4*(B1-4), 0, 1 - 3/2*(B1-4), 0, 3/4*(B1-4) - 1, 0, 0, 0, 0, -2*P/(3*B0)]`.
Polymorphic over the field so the same list is used at `ℝ` (root analysis)
and at `ℚ` (decidable degree computations). -/
def bm_coefficients {K : Type} [Field K] (P B0 B1 : K) : List K :=
  [3 / 4 * (B1 - 4), 0, 1 - 3 / 2 * (B1 - 4), 0, 3 / 4 * (B1 - 4) - 1,
   0, 0, 0, 0, -2 * P / (3 * B0)]

/-- Horner evaluation of a coefficient list (highest power first), matching
the polynomial whose roots `np.roots` returns. -/
def evalCoeffs {K : Type} [Field K] (l : List K) (x : K) : K :=
  l.foldl (fun acc c => acc * x + c) 0

/-- Predicate: `x` is a (real) root of the polynomial handed to `np.roots`.  The code
keeps a numerical root when `abs(x.imag) < 1e-8 * abs(x.real)`; for exact
real roots this filter keeps exactly the nonzero ones, which is recorded
separately in `helperCandidate`. -/
def IsBMRoot (P B0 B1 x : ℝ) : Prop :=
  evalCoeffs (bm_coefficients P B0 B1) x = 0

/-- Predicate: `V` is one of the candidate volumes `V0 / x.real**3` formed inside the
`min` of `helper_get_volume_from_pressure_birch_murnaghan` (note the pressure
has already been converted from GPa). -/
def helperCandidate (P V0 B0 B1 V : ℝ) : Prop :=
  ∃ x : ℝ, IsBMRoot (GPa_to_eV_angs3 P) B0 B1 x ∧ x ≠ 0 ∧ V = V0 / x ^ 3

/-- Relational embedding of `helper_get_volume_from_pressure_birch_murnaghan`:
the function returns `r` when some candidate volume `V` minimising the key
`abs(V - V0) / float(V0)` exists and `r = abs(V - V0) / V0 * 100`. -/
def helperReturns (P V0 B0 B1 r : ℝ) : Prop :=
  ∃ V : ℝ, helperCandidate P V0 B0 B1 V ∧
    (∀ W : ℝ, helperCandidate P V0 B0 B1 W → |V - V0| / V0 ≤ |W - V0| / V0) ∧
    r = |V - V0| / V0 * 100

/-- The third-order Birch-Murnaghan pressure as a function of
`x = (V0/V)^(1/3)`, in the same units as the converted pressure:
`P_BM = 3*B0/2 * (x^7 - x^5) * (1 + 3/4*(B1-4)*(x^2-1))`. -/
def bmPressure {K : Type} [Field K] (B0 B1 x : K) : K :=
  3 * B0 / 2 * (x ^ 7 - x ^ 5) * (1 + 3 / 4 * (B1 - 4) * (x ^ 2 - 1))

/-- The coefficient list is, up to the factor `2/(3*B0)`, the Birch-Murnaghan
pressure minus the target pressure. -/
lemma evalCoeffs_bm (P B0 B1 x : ℝ) (hB0 : B0 ≠ 0) :
    evalCoeffs (bm_coefficients P B0 B1) x =
      2 / (3 * B0) * (bmPressure B0 B1 x - P) := by
  simp only [evalCoeffs, bm_coefficients, List.foldl, bmPressure]
  field_simp
  ring

/-- Sum rule used by the zero-pressure analysis: at `x = 1` the polynomial
evaluates to its constant term `-2*P/(3*B0)`. -/
lemma evalCoeffs_at_one (P B0 B1 : ℝ) :
    evalCoeffs (bm_coefficients P B0 B1) 1 = -2 * P / (3 * B0) := by
  simp only [evalCoeffs, bm_coefficients, List.foldl]
  ring

/-- At zero pressure the helper returns `0`: `x = 1` is a root giving the
candidate `V0` at relative distance `0`. -/
lemma helperReturns_zero (V0 B0 B1 : ℝ) (hV0 : 0 < V0) :
    helperReturns 0 V0 B0 B1 0 := by
  refine ⟨V0, ⟨1, ?_, one_ne_zero, by norm_num⟩, ?_, by simp⟩
  · unfold IsBMRoot
    rw [evalCoeffs_at_one]
    simp [GPa_to_eV_angs3]
  · intro W _
    simp only [sub_self, abs_zero, zero_div]
    exact div_nonneg (abs_nonneg _) hV0.le

/-- The helper's return value is a function of its arguments: two values
related to the same inputs coincide. -/
lemma helperReturns_unique (P V0 B0 B1 r s : ℝ)
    (h₁ : helperReturns P V0 B0 B1 r) (h₂ : helperReturns P V0 B0 B1 s) :
    r = s := by
  obtain ⟨V, hV, hVmin, hr⟩ := h₁
  obtain ⟨W, hW, hWmin, hs⟩ := h₂
  have h1 : |V - V0| / V0 ≤ |W - V0| / V0 := hVmin W hW
  have h2 : |W - V0| / V0 ≤ |V - V0| / V0 := hWmin V hV
  have : |V - V0| / V0 = |W - V0| / V0 := le_antisymm h1 h2
  rw [hr, hs, this]

/-! ## pressure.py : helper_pressure_difference -/

/-- The fields of the `output_parameters` dicts read by
`helper_pressure_difference` (`hydrostatic_stress`). -/
structure PressureParams where
  hydrostatic_stress : ℝ

/-- The numeric fields of the `orm.Dict` returned by
`helper_pressure_difference` (the two unit strings are the constants
`"GPascal"` and `"%"` and carry no data). -/
structure PressureDiffOutput where
  pressure : ℝ
  relative_diff : ℝ
  absolute_diff : ℝ

/-- Relational embedding of the calcfunction `helper_pressure_difference`:
`pressure = input hydrostatic_stress`, `absolute_diff` is the absolute
pressure difference, and `relative_diff` is the value returned by
`helper_get_volume_from_pressure_birch_murnaghan` on it. -/
def helper_pressure_difference (input_parameters ref_parameters : PressureParams)
    (V0 B0 B1 : ℝ) (out : PressureDiffOutput) : Prop :=
  out.pressure = input_parameters.hydrostatic_stress ∧
  out.absolute_diff =
    |input_parameters.hydrostatic_stress - ref_parameters.hydrostatic_stress| ∧
  helperReturns out.absolute_diff V0 B0 B1 out.relative_diff

/-! ## pressure.py : degree of the polynomial handed to np.roots

At `ℚ` the coefficient list is decidable, so the degree of the polynomial it
represents can be computed: leading zeros are trimmed and the degree is the
remaining length minus one (the degree `np.roots` works at). -/

/-- Degree of the polynomial represented by a coefficient list (highest power
first): drop leading zero coefficients, then length minus one. -/
def coeffDegree (l : List ℚ) : ℕ :=
  (l.dropWhile (fun c => c == 0)).length - 1

/-! ## cohesive_energy.py : ConvergenceCohesiveEnergyWorkChain -/

/-- The `SYSTEM` card of the `orm.Dict` built by
`ConvergenceCohesiveEnergyWorkChain.get_inputs`. -/
structure PwSystem where
  degauss : ℚ
  occupations : String
  smearing : String
  ecutrho : ℚ
  ecutwfc : ℚ
deriving DecidableEq

/-- The inputs assembled by `get_inputs` for one `CohesiveEnergyWorkChain`
submission (code/pseudo/structure are passed through unchanged and carry no
data relevant to the claims). -/
structure CEInputs where
  pw_bulk : PwSystem
  pw_atom : PwSystem
  kpoints_distance : ℚ
  vacuum_length : ℚ
deriving DecidableEq

/-- Embedding of `ConvergenceCohesiveEnergyWorkChain.get_inputs(ecutwfc, ecutrho)`: one
`_PW_PARAS` dict used for both `pw_bulk` and `pw_atom`, plus the fixed
`kpoints_distance = 0.15` and `vacuum_length = 12.0`. -/
def get_inputs (ecutwfc ecutrho : ℚ) : CEInputs :=
  let paras : PwSystem :=
    { degauss := 0.01
      occupations := "smearing"
      smearing := "marzari-vanderbilt"
      ecutrho := ecutrho
      ecutwfc := ecutwfc }
  { pw_bulk := paras
    pw_atom := paras
    kpoints_distance := 0.15
    vacuum_length := 12.0 }

/-- Exit code `ERROR_SUB_PROCESS_FAILED` as declared in `define`: status 400
with the pk placeholder of the message filled in (`results` passes the list
of failed children pks; `run_all` passes the single reference pk, modelled
as a one-element list). -/
structure ExitCode where
  status : ℕ
  pk : List ℕ
deriving DecidableEq

/-- Embedding of `self.exit_codes.ERROR_SUB_PROCESS_FAILED.format(pk=pks)`. -/
def ERROR_SUB_PROCESS_FAILED (pks : List ℕ) : ExitCode :=
  { status := 400, pk := pks }

/-- A finished child `CohesiveEnergyWorkChain` as `results` observes it:
its pk, its `is_finished_ok` flag, the inputs it was submitted with
(`child.inputs.parameters__pw_bulk` is `inputs.pw_bulk`), and its
`outputs.output_parameters['cohesive_energy']`. -/
structure ChildWorkChain where
  pk : ℕ
  is_finished_ok : Bool
  inputs : CEInputs
  cohesive_energy : ℚ
deriving DecidableEq

/-- The reference `CohesiveEnergyWorkChain` as `run_all` observes it. -/
structure RefWorkChain where
  pk : ℕ
  is_finished_ok : Bool
  cohesive_energy : ℚ
deriving DecidableEq

/-- The outputs produced by `results` on success: the `xy_data` arrays
(`set_x` gets the ecutwfc list, `set_y` the relative values) and the
fields of `output_parameters` (the three unit strings are constants). -/
structure ResultsOutputs where
  x_values : List ℚ
  y_values : List ℚ
  ecutwfc_list : List ℚ
  ecutrho_list : List ℚ
  cohesive_energies : List ℚ
  relative_values : List ℚ
deriving DecidableEq

/-- Embedding of `ConvergenceCohesiveEnergyWorkChain.results`: if any child is not
finished ok, exit 400 with the failed pks; otherwise build the per-child
lists over the successful children and emit `output_parameters` and
`xy_data`. -/
def results (children : List ChildWorkChain) (ref_energy : ℚ) :
    Except ExitCode ResultsOutputs :=
  let pks := (children.filter (fun c => !c.is_finished_ok)).map (fun c => c.pk)
  if pks.isEmpty then
    let success_child := children.filter (fun c => c.is_finished_ok)
    let ecutwfcs := success_child.map (fun c => c.inputs.pw_bulk.ecutwfc)
    let ecutrhos := success_child.map (fun c => c.inputs.pw_bulk.ecutrho)
    let energies := success_child.map (fun c => c.cohesive_energy)
    let relatives := success_child.map
      (fun c => (c.cohesive_energy - ref_energy) / ref_energy * 100)
    Except.ok
      { x_values := ecutwfcs
        y_values := relatives
        ecutwfc_list := ecutwfcs
        ecutrho_list := ecutrhos
        cohesive_energies := energies
        relative_values := relatives }
  else
    Except.error (ERROR_SUB_PROCESS_FAILED pks)

/-- Default of the `parameters.dual` input. -/
def default_dual : ℚ := 8

/-- Embedding of `PARA_ECUTWFC_LIST`, the default of the
`parameters.ecutwfc_list` input. -/
def PARA_ECUTWFC_LIST : List ℚ :=
  [20, 25, 30, 35, 40, 45, 50, 55, 60, 65, 70, 75, 80, 85, 90, 95, 100, 110,
   120, 130, 140, 160, 180, 200]

/-- Embedding of `ConvergenceCohesiveEnergyWorkChain.run_ref`: the reference submission is
built with `ecutwfc = 200` and `ecutrho = 200 * dual`; like the Python method
it has access to the whole `parameters` namespace, including
`ecutwfc_list`. -/
def run_ref (dual : ℚ) (ecutwfc_list : List ℚ) : CEInputs :=
  get_inputs 200 (200 * dual)

/-- Embedding of `ConvergenceCohesiveEnergyWorkChain.run_all`: if the reference run did
not finish ok, exit 400 with its pk; otherwise record `ref_energy` and
submit one `CohesiveEnergyWorkChain` per entry of `ecutwfc_list`, each with
`ecutrho = ecutwfc * dual`. -/
def run_all (ref_workchain : RefWorkChain) (dual : ℚ) (ecutwfc_list : List ℚ) :
    Except ExitCode (ℚ × List CEInputs) :=
  if !ref_workchain.is_finished_ok then
    Except.error (ERROR_SUB_PROCESS_FAILED [ref_workchain.pk])
  else
    Except.ok (ref_workchain.cohesive_energy,
      ecutwfc_list.map (fun ecutwfc => get_inputs ecutwfc (ecutwfc * dual)))

/-- The set of percentage errors described in the specification: `P` is
divided by `160.21766208`, and for every nonzero real root `x` of the
Birch-Murnaghan equation `P_BM(x) = P/160.21766208` the volume `V0 / x^3`
contributes its percentage distance from `V0`. -/
def bmSpecSet (P V0 B0 B1 : ℝ) : Set ℝ :=
  {d : ℝ | ∃ x : ℝ, x ≠ 0 ∧ bmPressure B0 B1 x = P / 160.21766208 ∧
    d = |V0 / x ^ 3 - V0| / V0 * 100}

/-- The five steps named in `spec.outline`. -/
inductive Step where
  | setup
  | validate_structure
  | run_ref
  | run_all
  | results
deriving DecidableEq, BEq

/-- The `spec.outline(...)` of `ConvergenceCohesiveEnergyWorkChain.define`. -/
def outline : List Step :=
  [Step.setup, Step.validate_structure, Step.run_ref, Step.run_all, Step.results]

/-- Whenever the leading coefficient `3/4*(B1-4)` is nonzero, the
coefficient list represents a polynomial of degree nine. -/
lemma coeffDegree_bm (P B0 B1 : ℚ) (h : 3 / 4 * (B1 - 4) ≠ 0) :
    coeffDegree (bm_coefficients P B0 B1) = 9 := by
  simp [coeffDegree, bm_coefficients, List.dropWhile_cons, h]

/-! ## Theorems for the claims -/

/-- C1: `helper_get_volume_from_pressure_birch_murnaghan(P, V0, B0, B1)`
converts `P` to eV/angstrom^3 by dividing by `160.21766208`, its coefficient
list is the Birch-Murnaghan polynomial in `x = (V0/V)^(1/3)` (its roots are
exactly the solutions of `P_BM(x) = P/160.21766208`), and its return value is
the least element of the set of percentage errors `|V - V0|/V0 * 100` over
the volumes `V = V0/x^3` built from the nonzero real roots. -/
theorem helper_bm_inversion_spec (P V0 B0 B1 r : ℝ) (hV0 : 0 < V0) (hB0 : B0 ≠ 0) :
    (∀ P' : ℝ, GPa_to_eV_angs3 P' = P' / 160.21766208) ∧
    (∀ x : ℝ, IsBMRoot (GPa_to_eV_angs3 P) B0 B1 x ↔
      bmPressure B0 B1 x = P / 160.21766208) ∧
    (helperReturns P V0 B0 B1 r ↔ IsLeast (bmSpecSet P V0 B0 B1) r) := by
  have c : (2 : ℝ) / (3 * B0) ≠ 0 := by
    apply div_ne_zero (by norm_num)
    exact mul_ne_zero (by norm_num) hB0
  have root_iff : ∀ x : ℝ, IsBMRoot (GPa_to_eV_angs3 P) B0 B1 x ↔
      bmPressure B0 B1 x = P / 160.21766208 := by
    intro x
    unfold IsBMRoot
    rw [evalCoeffs_bm _ _ _ _ hB0]
    constructor
    · intro hz
      have := (mul_eq_zero.mp hz).resolve_left c
      have := sub_eq_zero.mp this
      simpa [GPa_to_eV_angs3] using this
    · intro hEq
      have : bmPressure B0 B1 x - GPa_to_eV_angs3 P = 0 := by
        rw [hEq]; simp [GPa_to_eV_angs3]
      rw [this, mul_zero]
  refine ⟨fun _ => rfl, root_iff, ?_, ?_⟩
  · rintro ⟨V, ⟨x, hx, hx0, hVdef⟩, hmin, hr⟩
    constructor
    · exact ⟨x, hx0, (root_iff x).mp hx, by rw [hr, hVdef]⟩
    · rintro d ⟨y, hy0, hyroot, hd⟩
      have hcand : helperCandidate P V0 B0 B1 (V0 / y ^ 3) :=
        ⟨y, (root_iff y).mpr hyroot, hy0, rfl⟩
      have := hmin (V0 / y ^ 3) hcand
      rw [hr, hd]
      exact mul_le_mul_of_nonneg_right this (by norm_num)
  · rintro ⟨⟨x, hx0, hxroot, hr⟩, hlb⟩
    refine ⟨V0 / x ^ 3, ⟨x, (root_iff x).mpr hxroot, hx0, rfl⟩, ?_, hr⟩
    rintro W ⟨y, hyroot, hy0, hWdef⟩
    have hmem : |W - V0| / V0 * 100 ∈ bmSpecSet P V0 B0 B1 :=
      ⟨y, hy0, (root_iff y).mp hyroot, by rw [hWdef]⟩
    have hle := hlb hmem
    rw [hr] at hle
    exact le_of_mul_le_mul_right hle (by norm_num)

/-- C1 witness: the equivalence instantiated at `P = 0`, `V0 = 1`, `B0 = 1`,
`B1 = 0`, `r = 0`. -/
theorem helper_bm_inversion_spec_witness :
    (∀ P' : ℝ, GPa_to_eV_angs3 P' = P' / 160.21766208) ∧
    (∀ x : ℝ, IsBMRoot (GPa_to_eV_angs3 0) 1 0 x ↔
      bmPressure 1 0 x = 0 / 160.21766208) ∧
    (helperReturns 0 1 1 0 0 ↔ IsLeast (bmSpecSet 0 1 1 0) 0) :=
  helper_bm_inversion_spec 0 1 1 0 0 (by norm_num) (by norm_num)

/-- C2 counterexample: the polynomial handed to `np.roots` is not cubic in
`x`; at `P = 0`, `B0 = 1`, `B1 = 0` the trimmed coefficient list has degree
`9`, not `3`. -/
theorem bm_polynomial_not_cubic :
    ¬ coeffDegree (bm_coefficients (0 : ℚ) 1 0) = 3 := by
  rw [coeffDegree_bm 0 1 0 (by norm_num)]
  norm_num

/-- C2 amended: the root-finding of the equation-of-state inversion is on a
polynomial of degree nine in `x` (whenever `B1 ≠ 4`, which makes the leading
coefficient `3/4*(B1-4)` nonzero), not cubic in `x`. -/
theorem bm_polynomial_degree_nine (P B0 B1 : ℚ) (h : B1 ≠ 4) :
    coeffDegree (bm_coefficients P B0 B1) = 9 :=
  coeffDegree_bm P B0 B1 (mul_ne_zero (by norm_num) (sub_ne_zero.mpr h))

/-- C2 amended witness: at `B1 = 0` the degree is nine. -/
theorem bm_polynomial_degree_nine_witness :
    coeffDegree (bm_coefficients (0 : ℚ) 1 0) = 9 :=
  bm_polynomial_degree_nine 0 1 0 (by norm_num)

/-- C9: at `P = 0` the polynomial evaluated at `x = 1` equals the constant
term `-2*P/(3*B0)` (for any converted pressure `p`), so `x = 1` is a root,
the candidate `V = V0` has relative distance `0`, and the helper returns
`0`. -/
theorem helper_zero_pressure (V0 B0 B1 : ℝ)
    (hV0 : 0 < V0) (hB0 : B0 ≠ 0) (hB1 : B1 ≠ 4) :
    (∀ p : ℝ, evalCoeffs (bm_coefficients p B0 B1) 1 = -2 * p / (3 * B0)) ∧
    helperReturns 0 V0 B0 B1 0 :=
  ⟨fun p => evalCoeffs_at_one p B0 B1, helperReturns_zero V0 B0 B1 hV0⟩

/-- C9 witness: instantiated at `V0 = 1`, `B0 = 1`, `B1 = 0`. -/
theorem helper_zero_pressure_witness :
    (∀ p : ℝ, evalCoeffs (bm_coefficients p 1 0) 1 = -2 * p / (3 * 1)) ∧
    helperReturns 0 1 1 0 0 :=
  helper_zero_pressure 1 1 0 (by norm_num) (by norm_num) (by norm_num)

/-- C10: `helper_pressure_difference` is symmetric in its first two
arguments up to the `pressure` field: swapping `input_parameters` and
`ref_parameters` leaves `absolute_diff` and `relative_diff` unchanged,
because the pressure difference is taken in absolute value before the
Birch-Murnaghan inversion. -/
theorem helper_pressure_difference_symm (a b : PressureParams) (V0 B0 B1 : ℝ)
    (o₁ o₂ : PressureDiffOutput)
    (h₁ : helper_pressure_difference a b V0 B0 B1 o₁)
    (h₂ : helper_pressure_difference b a V0 B0 B1 o₂) :
    o₁.absolute_diff = o₂.absolute_diff ∧ o₁.relative_diff = o₂.relative_diff := by
  obtain ⟨-, habs₁, hrel₁⟩ := h₁
  obtain ⟨-, habs₂, hrel₂⟩ := h₂
  have habs : o₁.absolute_diff = o₂.absolute_diff := by
    rw [habs₁, habs₂, abs_sub_comm]
  refine ⟨habs, ?_⟩
  rw [habs] at hrel₁
  exact helperReturns_unique _ _ _ _ _ _ hrel₁ hrel₂

/-- C10 witness: both orientations evaluated on equal stresses `5`,
`V0 = 1`, `B0 = 1`, `B1 = 0`, each returning pressure `5` and zero
differences. -/
theorem helper_pressure_difference_symm_witness :
    (PressureDiffOutput.mk 5 0 0).absolute_diff =
      (PressureDiffOutput.mk 5 0 0).absolute_diff ∧
    (PressureDiffOutput.mk 5 0 0).relative_diff =
      (PressureDiffOutput.mk 5 0 0).relative_diff :=
  helper_pressure_difference_symm ⟨5⟩ ⟨5⟩ 1 1 0 ⟨5, 0, 0⟩ ⟨5, 0, 0⟩
    ⟨rfl, by simp, helperReturns_zero 1 1 0 (by norm_num)⟩
    ⟨rfl, by simp, helperReturns_zero 1 1 0 (by norm_num)⟩

/-- C3: on success, `results` reports for each successful child the relative
value `(energy - ref_energy) / ref_energy * 100`, pairs it in `xy_data` with
that child's `ecutwfc` as the x value, and the x and y arrays have equal
length. -/
theorem results_relative_xy (children : List ChildWorkChain) (ref_energy : ℚ)
    (out : ResultsOutputs) (h : results children ref_energy = Except.ok out) :
    out.x_values.length = out.y_values.length ∧
    ∀ i : ℕ, ∀ hy : i < out.y_values.length, ∀ hx : i < out.x_values.length,
      ∃ c : ChildWorkChain, c ∈ children ∧ c.is_finished_ok = true ∧
        out.y_values.get ⟨i, hy⟩ =
          (c.cohesive_energy - ref_energy) / ref_energy * 100 ∧
        out.x_values.get ⟨i, hx⟩ = c.inputs.pw_bulk.ecutwfc := by
  simp only [results] at h
  split at h
  case isFalse => exact absurd h (by simp)
  case isTrue hp =>
    rw [Except.ok.injEq] at h
    subst h
    simp only
    constructor
    · simp
    · intro i hy hx
      set success := children.filter (fun c => c.is_finished_ok) with hsucc
      simp only [List.length_map] at hy
      refine ⟨success.get ⟨i, hy⟩, ?_, ?_, ?_, ?_⟩
      · exact (List.mem_filter.mp (success.get_mem i hy)).1
      · exact (List.mem_filter.mp (success.get_mem i hy)).2
      · simp [List.get_eq_getElem]
      · simp [List.get_eq_getElem]

/-- C3 witness: a single successful child at `ecutwfc = 30`, energy `5`
against reference energy `10` gives x list `[30]` and y list `[-50]`. -/
theorem results_relative_xy_witness :
    (ResultsOutputs.mk [30] [-50] [30] [240] [5] [-50]).x_values.length =
      (ResultsOutputs.mk [30] [-50] [30] [240] [5] [-50]).y_values.length ∧
    ∀ i : ℕ,
      ∀ hy : i < (ResultsOutputs.mk [30] [-50] [30] [240] [5] [-50]).y_values.length,
      ∀ hx : i < (ResultsOutputs.mk [30] [-50] [30] [240] [5] [-50]).x_values.length,
      ∃ c : ChildWorkChain,
        c ∈ [ChildWorkChain.mk 1 true (get_inputs 30 240) 5] ∧
        c.is_finished_ok = true ∧
        (ResultsOutputs.mk [30] [-50] [30] [240] [5] [-50]).y_values.get ⟨i, hy⟩ =
          (c.cohesive_energy - 10) / 10 * 100 ∧
        (ResultsOutputs.mk [30] [-50] [30] [240] [5] [-50]).x_values.get ⟨i, hx⟩ =
          c.inputs.pw_bulk.ecutwfc :=
  results_relative_xy [ChildWorkChain.mk 1 true (get_inputs 30 240) 5] 10
    (ResultsOutputs.mk [30] [-50] [30] [240] [5] [-50])
    (by norm_num [results, get_inputs])

/-- C4: `results` produces its outputs exactly when every child finished
successfully; otherwise it returns exit code 400 carrying exactly the list
of failed pks (which is then nonempty), and no outputs are produced. -/
theorem results_gating (children : List ChildWorkChain) (ref_energy : ℚ) :
    ((∃ out, results children ref_energy = Except.ok out) ↔
      ∀ c ∈ children, c.is_finished_ok = true) ∧
    ∀ e, results children ref_energy = Except.error e →
      e = ERROR_SUB_PROCESS_FAILED
            ((children.filter (fun c => !c.is_finished_ok)).map (fun c => c.pk)) ∧
      e.status = 400 ∧ e.pk ≠ [] := by
  have hempty :
      ((children.filter (fun c => !c.is_finished_ok)).map (fun c => c.pk)).isEmpty =
        true ↔ ∀ c ∈ children, c.is_finished_ok = true := by
    rw [List.isEmpty_iff, List.map_eq_nil_iff, List.filter_eq_nil_iff]
    simp
  constructor
  · constructor
    · rintro ⟨out, hout⟩
      simp only [results] at hout
      split at hout
      case isTrue hp => exact hempty.mp hp
      case isFalse => exact absurd hout (by simp)
    · intro hall
      simp only [results]
      rw [if_pos (hempty.mpr hall)]
      exact ⟨_, rfl⟩
  · intro e he
    simp only [results] at he
    split at he
    case isTrue => exact absurd he (by simp)
    case isFalse hp =>
      rw [Except.error.injEq] at he
      refine ⟨he.symm, by rw [← he]; rfl, ?_⟩
      rw [← he]
      simp only [ERROR_SUB_PROCESS_FAILED, ne_eq]
      intro hnil
      exact hp (by simp [List.isEmpty_iff, hnil])

/-- C4 witness: the gating equivalence at a single failed child with pk `7`
(where `results` returns exit code 400 with pk list `[7]`). -/
theorem results_gating_witness :
    ((∃ out, results [ChildWorkChain.mk 7 false (get_inputs 30 240) 0] 1 =
        Except.ok out) ↔
      ∀ c ∈ [ChildWorkChain.mk 7 false (get_inputs 30 240) 0],
        c.is_finished_ok = true) ∧
    ∀ e, results [ChildWorkChain.mk 7 false (get_inputs 30 240) 0] 1 =
        Except.error e →
      e = ERROR_SUB_PROCESS_FAILED
            (([ChildWorkChain.mk 7 false (get_inputs 30 240) 0].filter
                (fun c => !c.is_finished_ok)).map (fun c => c.pk)) ∧
      e.status = 400 ∧ e.pk ≠ [] :=
  results_gating [ChildWorkChain.mk 7 false (get_inputs 30 240) 0] 1

/-- C5: if the reference work chain did not finish successfully, `run_all`
returns exit code 400 formatted with the reference pk and submits nothing
(the success payload exists only in the `ok` branch); a submission list is
produced only when the reference run finished successfully. -/
theorem run_all_ref_gating (ref_workchain : RefWorkChain) (dual : ℚ)
    (ecutwfc_list : List ℚ) :
    (ref_workchain.is_finished_ok = false →
      run_all ref_workchain dual ecutwfc_list =
        Except.error (ERROR_SUB_PROCESS_FAILED [ref_workchain.pk]) ∧
      (ERROR_SUB_PROCESS_FAILED [ref_workchain.pk]).status = 400) ∧
    ∀ p, run_all ref_workchain dual ecutwfc_list = Except.ok p →
      ref_workchain.is_finished_ok = true := by
  constructor
  · intro hfail
    exact ⟨by simp [run_all, hfail], rfl⟩
  · intro p hp
    by_contra hok
    rw [Bool.not_eq_true] at hok
    simp [run_all, hok] at hp

/-- C5 witness: a failed reference with pk `3` yields exit code 400 with
`[3]`, and any successful payload forces `is_finished_ok`. -/
theorem run_all_ref_gating_witness :
    ((RefWorkChain.mk 3 false 0).is_finished_ok = false →
      run_all (RefWorkChain.mk 3 false 0) 8 PARA_ECUTWFC_LIST =
        Except.error (ERROR_SUB_PROCESS_FAILED [(RefWorkChain.mk 3 false 0).pk]) ∧
      (ERROR_SUB_PROCESS_FAILED [(RefWorkChain.mk 3 false 0).pk]).status = 400) ∧
    ∀ p, run_all (RefWorkChain.mk 3 false 0) 8 PARA_ECUTWFC_LIST = Except.ok p →
      (RefWorkChain.mk 3 false 0).is_finished_ok = true :=
  run_all_ref_gating (RefWorkChain.mk 3 false 0) 8 PARA_ECUTWFC_LIST

/-- C6: after a successful reference run, `run_all` submits exactly one
sibling per entry of `ecutwfc_list` (whose default `PARA_ECUTWFC_LIST` has
24 entries), each built by `get_inputs` with `ecutrho = ecutwfc * dual`
(default dual `8`). -/
theorem run_all_submissions (ref_workchain : RefWorkChain) (dual : ℚ)
    (ecutwfc_list : List ℚ) (h : ref_workchain.is_finished_ok = true) :
    ∃ subs : List CEInputs,
      run_all ref_workchain dual ecutwfc_list =
        Except.ok (ref_workchain.cohesive_energy, subs) ∧
      subs.length = ecutwfc_list.length ∧
      (∀ i : ℕ, ∀ hi : i < ecutwfc_list.length, ∀ hs : i < subs.length,
        subs.get ⟨i, hs⟩ =
          get_inputs (ecutwfc_list.get ⟨i, hi⟩)
            (ecutwfc_list.get ⟨i, hi⟩ * dual) ∧
        (subs.get ⟨i, hs⟩).pw_bulk.ecutwfc = ecutwfc_list.get ⟨i, hi⟩ ∧
        (subs.get ⟨i, hs⟩).pw_bulk.ecutrho = ecutwfc_list.get ⟨i, hi⟩ * dual) ∧
      PARA_ECUTWFC_LIST.length = 24 ∧ default_dual = 8 := by
  refine ⟨ecutwfc_list.map (fun ecutwfc => get_inputs ecutwfc (ecutwfc * dual)),
    by simp [run_all, h], by simp, ?_, by simp [PARA_ECUTWFC_LIST], rfl⟩
  intro i hi hs
  have hget : (ecutwfc_list.map
      (fun ecutwfc => get_inputs ecutwfc (ecutwfc * dual))).get ⟨i, hs⟩ =
      get_inputs (ecutwfc_list.get ⟨i, hi⟩) (ecutwfc_list.get ⟨i, hi⟩ * dual) := by
    simp [List.get_eq_getElem]
  exact ⟨hget, by rw [hget]; rfl, by rw [hget]; rfl⟩

/-- C6 witness: a successful reference and the one-element list `[30]` with
dual `8` yield exactly one submission with `ecutrho = 240`. -/
theorem run_all_submissions_witness :
    ∃ subs : List CEInputs,
      run_all (RefWorkChain.mk 1 true 0) 8 [30] =
        Except.ok ((RefWorkChain.mk 1 true 0).cohesive_energy, subs) ∧
      subs.length = ([(30 : ℚ)] : List ℚ).length ∧
      (∀ i : ℕ, ∀ hi : i < ([(30 : ℚ)] : List ℚ).length, ∀ hs : i < subs.length,
        subs.get ⟨i, hs⟩ =
          get_inputs (([(30 : ℚ)] : List ℚ).get ⟨i, hi⟩)
            (([(30 : ℚ)] : List ℚ).get ⟨i, hi⟩ * 8) ∧
        (subs.get ⟨i, hs⟩).pw_bulk.ecutwfc = ([(30 : ℚ)] : List ℚ).get ⟨i, hi⟩ ∧
        (subs.get ⟨i, hs⟩).pw_bulk.ecutrho =
          ([(30 : ℚ)] : List ℚ).get ⟨i, hi⟩ * 8) ∧
      PARA_ECUTWFC_LIST.length = 24 ∧ default_dual = 8 :=
  run_all_submissions (RefWorkChain.mk 1 true 0) 8 [30] rfl

/-- C7: `run_ref` builds the reference submission with `ecutwfc = 200` and
`ecutrho = 200 * dual` (in both the bulk and the atom parameter dicts), and
its result does not depend on the `ecutwfc_list` input. -/
theorem run_ref_fixed_cutoff (dual : ℚ) (ecutwfc_list : List ℚ) :
    run_ref dual ecutwfc_list = get_inputs 200 (200 * dual) ∧
    (run_ref dual ecutwfc_list).pw_bulk.ecutwfc = 200 ∧
    (run_ref dual ecutwfc_list).pw_bulk.ecutrho = 200 * dual ∧
    (run_ref dual ecutwfc_list).pw_atom.ecutwfc = 200 ∧
    (run_ref dual ecutwfc_list).pw_atom.ecutrho = 200 * dual ∧
    ∀ other : List ℚ, run_ref dual ecutwfc_list = run_ref dual other :=
  ⟨rfl, rfl, rfl, rfl, rfl, fun _ => rfl⟩

/-- C8: the outline of `ConvergenceCohesiveEnergyWorkChain` is exactly
`setup, validate_structure, run_ref, run_all, results`, each step occurring
once, so the reference step precedes the sibling-submission step, which
precedes result reduction. -/
theorem outline_fixed_order :
    outline = [Step.setup, Step.validate_structure, Step.run_ref,
      Step.run_all, Step.results] ∧
    outline.Nodup ∧
    outline.indexOf Step.setup < outline.indexOf Step.validate_structure ∧
    outline.indexOf Step.validate_structure < outline.indexOf Step.run_ref ∧
    outline.indexOf Step.run_ref < outline.indexOf Step.run_all ∧
    outline.indexOf Step.run_all < outline.indexOf Step.results := by
  refine ⟨rfl, ?_, ?_, ?_, ?_, ?_⟩ <;> decide

end SsspWorkflow
